import Mathlib

/-
Shallow embedding of the dawikk-chessboard board interaction controller.
The authoritative source is the latest revision of src/components/Chessboard.js
(src/unnamed/part_003): the boardReducer, the presentation coordinate maps of
OptimizedBoardRow and onHandlerStateChange, the blindfold masking predicate,
and the handlers handleMove, handlePromotionSelect, onSquarePress and
onHandlerStateChange.  The external rule engine (chess.js) is modelled as an
opaque collaborator interface; React state updates become explicit state
passing and the optional callbacks (onMove, onBlindSelect, vibration) become
an emitted effect list.
-/

namespace Chessboard

/-- Algebraic square. The source passes squares as two-character strings such
as "e2"; we keep the two components: file index 0..7 (the value of
charCodeAt(0) - 97) and rank numeral 1..8 (the digit character). -/
structure Square where
  file : Nat
  rank : Nat
  deriving DecidableEq, Repr

/-- Piece colour as reported by chess.js: w or b. -/
inductive Color where
  | w
  | b
  deriving DecidableEq, Repr

/-- Piece kind as reported by chess.js: p n b r q k. -/
inductive PKind where
  | p
  | n
  | b
  | r
  | q
  | k
  deriving DecidableEq, Repr

/-- Piece object as returned by chess.get(square). -/
structure Piece where
  color : Color
  ptype : PKind
  deriving DecidableEq, Repr

/-- Reply of the external rule engine to a .move call: a legal move returns the
updated engine state (a truthy move object in chess.js), an illegal move yields
a falsy result, and malformed input makes the engine throw (the raise case,
caught by the try/catch in handleMove). -/
inductive EngineReply (E : Type) where
  | ok (next : E)
  | reject
  | raise
  deriving DecidableEq, Repr

/-- True when the reply is a successful move. -/
def EngineReply.isOk {E : Type} : EngineReply E → Bool
  | .ok _ => true
  | .reject => false
  | .raise => false

/-- Interface of the external rule engine (a chess.js instance) as consumed by
the controller: turn(), get(square), moves with square and verbose mapped to
their to-squares, and move(from, to, promotion).  E is the opaque engine
state; the engine is deterministic, so the trial move on the testChess copy
and the committing move on chessRef evaluate to the same reply. -/
structure RuleEngine (E : Type) where
  turn : E → Color
  get : E → Square → Option Piece
  movesFrom : E → Square → List Square
  move : E → Square → Square → Option PKind → EngineReply E

/-- chess.js .move invoked with a null or empty-string square (as
handlePromotionSelect can do when no promotion is pending) throws, which the
caller catches; a present pair is forwarded to the engine. -/
def RuleEngine.moveOpt {E : Type} (eng : RuleEngine E) (e : E) :
    Option Square → Option Square → Option PKind → EngineReply E
  | some f, some t, promo => eng.move e f t promo
  | _, _, _ => .raise

/-- State owned by boardReducer (part_003 lines 288-297).  The source stores
promotionFrom and promotionTo as the empty string when cleared and last-move
fields as null when absent; the empty string and null are both modelled as
none. -/
structure BoardState where
  selectedSquare : Option Square
  validMoves : List Square
  lastMoveFrom : Option Square
  lastMoveTo : Option Square
  hintSquare : Option Square
  showPromotion : Bool
  promotionFrom : Option Square
  promotionTo : Option Square
  deriving DecidableEq, Repr

/-- Initial reducer state (part_003 lines 288-297), parametrised by the
lastMoveFrom and lastMoveTo props. -/
def initialBoardState (lf lt : Option Square) : BoardState :=
  { selectedSquare := none
    validMoves := []
    lastMoveFrom := lf
    lastMoveTo := lt
    hintSquare := none
    showPromotion := false
    promotionFrom := none
    promotionTo := none }

/-- Actions of BOARD_ACTIONS (part_003 lines 34-43). -/
inductive BoardAction where
  | selectSquare (square : Square) (validMoves : List Square)
  | clearSelection
  | setHint (square : Square)
  | clearHint
  | setLastMove (mfrom mto : Option Square)
  | showPromotion (pfrom pto : Option Square)
  | hidePromotion
  | resetState (lf lt : Option Square)
  deriving DecidableEq, Repr

/-- boardReducer (part_003 lines 45-103), case by case. -/
def boardReducer (state : BoardState) (action : BoardAction) : BoardState :=
  match action with
  | .selectSquare square validMoves =>
      { state with selectedSquare := some square, validMoves := validMoves }
  | .clearSelection =>
      { state with selectedSquare := none, validMoves := [] }
  | .setHint square =>
      { state with hintSquare := some square }
  | .clearHint =>
      { state with hintSquare := none }
  | .setLastMove mfrom mto =>
      { state with lastMoveFrom := mfrom, lastMoveTo := mto }
  | .showPromotion pfrom pto =>
      { state with showPromotion := true, promotionFrom := pfrom, promotionTo := pto }
  | .hidePromotion =>
      { state with showPromotion := false, promotionFrom := none, promotionTo := none }
  | .resetState lf lt =>
      { selectedSquare := none
        validMoves := []
        lastMoveFrom := lf
        lastMoveTo := lt
        hintSquare := none
        showPromotion := false
        promotionFrom := none
        promotionTo := none }

/-- Board orientation prop (perspective, white or black). -/
inductive Persp where
  | white
  | black
  deriving DecidableEq, Repr

/-- Square rendered at presentation position (rowIndex, colIndex): the
squareNotations of OptimizedBoardRow (part_003 lines 205-211), also the to
computation of onHandlerStateChange (lines 512-514).  White: fromCharCode(97 +
col) and rank 8 - row; black: fromCharCode(104 - col), whose file index is
7 - col, and rank row + 1. -/
def squareAt (persp : Persp) (rowIndex colIndex : Nat) : Square :=
  match persp with
  | .white => { file := colIndex, rank := 8 - rowIndex }
  | .black => { file := 7 - colIndex, rank := rowIndex + 1 }

/-- Presentation (row, col) that onHandlerStateChange assigns to a square
before applying the drag displacement (part_003 lines 503-504): col is
charCodeAt(0) - 97 under both orientations, row is 8 - rank for white and
rank - 1 for black. -/
def toPresentationIndex (persp : Persp) (s : Square) : Nat × Nat :=
  match persp with
  | .white => (8 - s.rank, s.file)
  | .black => (s.rank - 1, s.file)

/-- Component configuration props used by the input handlers.  hasOnBlindSelect
and hasSquareSize record the truthiness of the onBlindSelect callback prop and
of the measured currentSquareSize. -/
structure Config where
  isLoading : Bool
  readonly : Bool
  blindfoldMode : Bool
  hasOnBlindSelect : Bool
  restrictToCircled : Bool
  circledSquares : List Square
  hasSquareSize : Bool
  deriving DecidableEq, Repr

/-- Mutable component state threaded through the handlers: chessRef.current,
the reducer state, and lastMoveTimeRef.current in milliseconds. -/
structure ComponentState (E : Type) where
  chess : E
  board : BoardState
  lastMoveTime : Int
  deriving DecidableEq, Repr

/-- Observable side effects of a handler invocation, in emission order:
the onMove callback, Vibration.vibrate, the onBlindSelect reveal callback,
the onRestrictedMoveAttempt callback, and the console warning of the
try/catch around a throwing engine. -/
inductive Effect where
  | moveCommitted (mfrom mto : Option Square) (promotion : Option PKind)
  | vibrate (ms : Nat)
  | blindSelect (square : Square)
  | restrictedAttempt (square : Square)
  | warnMoveError
  deriving DecidableEq, Repr

/-- handleMove (part_003 lines 383-409): debounce on lastMoveTimeRef, then try
the move; a truthy reply commits the move on chessRef, fires onMove and
dispatches SET_LAST_MOVE and CLEAR_SELECTION; a falsy reply or a thrown error
only dispatches CLEAR_SELECTION.  The timestamp is recorded before the engine
is consulted. -/
def handleMove {E : Type} (eng : RuleEngine E) (st : ComponentState E)
    (mfrom mto : Option Square) (promotion : Option PKind) (now : Int) :
    ComponentState E × List Effect :=
  if now - st.lastMoveTime < 150 then (st, [])
  else
    match eng.moveOpt st.chess mfrom mto promotion with
    | .ok next =>
        ({ chess := next
           board := boardReducer (boardReducer st.board (.setLastMove mfrom mto)) .clearSelection
           lastMoveTime := now },
         [.moveCommitted mfrom mto promotion])
    | .reject =>
        ({ st with board := boardReducer st.board .clearSelection, lastMoveTime := now }, [])
    | .raise =>
        ({ st with board := boardReducer st.board .clearSelection, lastMoveTime := now },
         [.warnMoveError])

/-- handlePromotionSelect (part_003 lines 411-414): re-issue the stored pending
pair with the chosen promotion piece, then dispatch HIDE_PROMOTION. -/
def handlePromotionSelect {E : Type} (eng : RuleEngine E) (st : ComponentState E)
    (piece : PKind) (now : Int) : ComponentState E × List Effect :=
  let result := handleMove eng st st.board.promotionFrom st.board.promotionTo (some piece) now
  ({ result.1 with board := boardReducer result.1.board .hidePromotion }, result.2)

/-- canSelectPiece (part_003 lines 416-421). -/
def canSelectPiece (cfg : Config) (square : Square) : Bool :=
  if cfg.restrictToCircled && !cfg.circledSquares.isEmpty then
    cfg.circledSquares.contains square
  else true

/-- Truthiness of clickedPiece combined with clickedPiece.color ===
currentTurn (part_003 lines 442 and 468). -/
def isOwnTurnPiece (cp : Option Piece) (turn : Color) : Bool :=
  match cp with
  | some pc => pc.color == turn
  | none => false

/-- Pawn-promotion test of the tap path (part_003 lines 453-455): the selected
piece is a pawn, and either a black pawn moves from rank character 2 to rank
character 1 or a white pawn from 7 to 8. -/
def isPromoPress (sp : Piece) (sel target : Square) : Bool :=
  sp.ptype == .p &&
    ((sp.color == .b && sel.rank == 2 && target.rank == 1) ||
     (sp.color == .w && sel.rank == 7 && target.rank == 8))

/-- onSquarePress (part_003 lines 423-479). -/
def onSquarePress {E : Type} (eng : RuleEngine E) (cfg : Config)
    (st : ComponentState E) (square : Square) (now : Int) :
    ComponentState E × List Effect :=
  if cfg.isLoading || cfg.readonly then (st, [])
  else if cfg.blindfoldMode && cfg.hasOnBlindSelect then (st, [.blindSelect square])
  else
    let currentTurn := eng.turn st.chess
    let clickedPiece := eng.get st.chess square
    let selectedPiece := st.board.selectedSquare.bind (eng.get st.chess)
    if st.board.selectedSquare = some square then
      ({ st with board := boardReducer st.board .clearSelection }, [])
    else
      match st.board.selectedSquare, selectedPiece with
      | some sel, some sp =>
          if isOwnTurnPiece clickedPiece currentTurn then
            if !canSelectPiece cfg square then
              (st, [.restrictedAttempt square, .vibrate 100])
            else
              ({ st with
                  board := boardReducer st.board
                    (.selectSquare square (eng.movesFrom st.chess square)) }, [])
          else if isPromoPress sp sel square then
            ({ st with
                board := boardReducer st.board (.showPromotion (some sel) (some square)) }, [])
          else
            handleMove eng st (some sel) (some square) none now
      | _, _ =>
          if isOwnTurnPiece clickedPiece currentTurn then
            if !canSelectPiece cfg square then
              (st, [.restrictedAttempt square, .vibrate 100])
            else
              ({ st with
                  board := boardReducer st.board
                    (.selectSquare square (eng.movesFrom st.chess square)) }, [])
          else
            ({ st with board := boardReducer st.board .clearSelection }, [])

/-- Gesture handler states used by onHandlerStateChange: State.BEGAN,
State.END, and every other state (no-op). -/
inductive GestureState where
  | began
  | ended
  | other
  deriving DecidableEq, Repr

/-- Landing cell of a drag (part_003 lines 503-507): the row and col the
handler assigns to the dragged square plus the displacement already quantized
to board cells, dy and dx standing for Math.round(translationY over
currentSquareSize) and the X analogue. -/
def dragCell (persp : Persp) (square : Square) (dx dy : Int) : Int × Int :=
  (((toPresentationIndex persp square).1 : Int) + dy,
   ((toPresentationIndex persp square).2 : Int) + dx)

/-- Bounds test of part_003 line 511. -/
def dragInBounds (cell : Int × Int) : Bool :=
  0 ≤ cell.2 && cell.2 < 8 && 0 ≤ cell.1 && cell.1 < 8

/-- Destination square decoded from an in-bounds landing cell (part_003 lines
512-514), via the same encoding as squareNotations. -/
def dragTarget (persp : Persp) (cell : Int × Int) : Square :=
  squareAt persp cell.1.toNat cell.2.toNat

/-- onHandlerStateChange (part_003 lines 491-538).  A drag end inside the
board over a reachable target either opens the promotion overlay (pawn landing
on presentation row 0 or 7) or calls handleMove; any other drag end aborts
with Vibration.vibrate(80); the handler always finishes a drag end by
dispatching CLEAR_SELECTION. -/
def onHandlerStateChange {E : Type} (eng : RuleEngine E) (cfg : Config)
    (persp : Persp) (st : ComponentState E) (square : Square)
    (gstate : GestureState) (dx dy : Int) (now : Int) :
    ComponentState E × List Effect :=
  if cfg.isLoading || cfg.readonly || !cfg.hasSquareSize || cfg.blindfoldMode then (st, [])
  else if gstate == .began then
    if !canSelectPiece cfg square then (st, [.restrictedAttempt square, .vibrate 100])
    else (st, [])
  else if gstate == .ended then
    let cell := dragCell persp square dx dy
    if dragInBounds cell then
      let target := dragTarget persp cell
      if st.board.validMoves.contains target then
        let selPiece := st.board.selectedSquare.bind (eng.get st.chess)
        if (match selPiece with
            | some pc => pc.ptype == PKind.p
            | none => false) && (cell.1 == 0 || cell.1 == 7) then
          ({ st with
              board := boardReducer
                (boardReducer st.board (.showPromotion st.board.selectedSquare (some target)))
                .clearSelection },
           [.vibrate 30])
        else
          let result := handleMove eng st st.board.selectedSquare (some target) none now
          ({ result.1 with board := boardReducer result.1.board .clearSelection },
           [.vibrate 50] ++ result.2)
      else
        ({ st with board := boardReducer st.board .clearSelection }, [.vibrate 80])
    else
      ({ st with board := boardReducer st.board .clearSelection }, [.vibrate 80])
  else (st, [])

/-- hiddenSquares prop of the blindfold feature: the literal string all, a Set
of square notations, or null (whose optional chaining hiddenSquares?.has?.()
evaluates to undefined, hence false). -/
inductive HiddenSquares where
  | allHidden
  | setOf (squares : List Square)
  | nullSet
  deriving DecidableEq, Repr

/-- Membership test hiddenSquares === "all" || hiddenSquares?.has?.(square)
(part_003 lines 222-223). -/
def coveredBy (hs : HiddenSquares) (sq : Square) : Bool :=
  match hs with
  | .allHidden => true
  | .setOf l => l.contains sq
  | .nullSet => false

/-- isHidden of OptimizedBoardRow (part_003 lines 220-224): blindfoldMode &&
hasPiece && covered, where hasPiece is square !== null for the rendered cell
content. -/
def isHidden (blindfoldMode : Bool) (piece : Option Piece) (hs : HiddenSquares)
    (sq : Square) : Bool :=
  blindfoldMode && piece.isSome && coveredBy hs sq

/-- Event-loop state for the imperative highlight handle (part_003 lines
360-370): the current hintSquare plus the expiry instants of the pending
setTimeout callbacks, in scheduling order.  Every scheduled callback
dispatches an unconditional CLEAR_HINT when it fires. -/
structure HintSys where
  hint : Option Square
  timers : List Int
  deriving DecidableEq, Repr

/-- Fire every pending timer due at or before instant t: each firing sets the
hint to none, so the hint survives exactly when no timer was due; due timers
leave the queue. -/
def fireDue (s : HintSys) (t : Int) : HintSys :=
  { hint := if (s.timers.filter (fun e => decide (e ≤ t))).isEmpty then s.hint else none
    timers := s.timers.filter (fun e => decide (t < e)) }

/-- Run a time-ordered list of highlight(square) calls on the single-threaded
event loop: timers due before a call fire first, then the call dispatches
SET_HINT and schedules an unconditional CLEAR_HINT 3000 ms later (part_003
lines 366-369; the handler performs no cancellation and no staleness check). -/
def runHighlights (s : HintSys) : List (Int × Square) → HintSys
  | [] => s
  | (t, sq) :: rest =>
      let s1 := fireDue s t
      runHighlights { hint := some sq, timers := s1.timers ++ [t + 3000] } rest

/-- Hint visible at instant tEnd, after processing the given time-ordered
highlight calls (all at instants at most tEnd) and every timer due by tEnd. -/
def hintAfter (calls : List (Int × Square)) (tEnd : Int) : Option Square :=
  (fireDue (runHighlights { hint := none, timers := [] } calls) tEnd).hint

/-- True when the effect list contains an onMove emission, that is, when the
handler committed a move. -/
def commitsMove (effs : List Effect) : Bool :=
  effs.any fun e =>
    match e with
    | .moveCommitted _ _ _ => true
    | _ => false

/-- Concrete squares used in the concrete runs below. -/
def sqA1 : Square := { file := 0, rank := 1 }

def sqA2 : Square := { file := 0, rank := 2 }

def sqB2 : Square := { file := 1, rank := 2 }

def sqE2 : Square := { file := 4, rank := 2 }

def sqE3 : Square := { file := 4, rank := 3 }

def sqE4 : Square := { file := 4, rank := 4 }

def sqE7 : Square := { file := 4, rank := 7 }

def sqE8 : Square := { file := 4, rank := 8 }

def sqH1 : Square := { file := 7, rank := 1 }

def sqH2 : Square := { file := 7, rank := 2 }

/-- Default configuration: loaded board, interactive, no blindfold, no square
restriction, layout measured. -/
def cfgPlain : Config :=
  { isLoading := false
    readonly := false
    blindfoldMode := false
    hasOnBlindSelect := false
    restrictToCircled := false
    circledSquares := []
    hasSquareSize := true }

/-- Blindfold mode enabled but no onBlindSelect callback supplied (both are
independent props; onBlindSelect defaults to null). -/
def cfgBlindNoCb : Config :=
  { cfgPlain with blindfoldMode := true, hasOnBlindSelect := false }

/-- Blindfold mode enabled with an onBlindSelect callback supplied. -/
def cfgBlindCb : Config :=
  { cfgPlain with blindfoldMode := true, hasOnBlindSelect := true }

/-- Concrete engine transcript mirroring chess.js on a position with white to
move and a white pawn on e7 about to promote on e8: state 0 is the starting
position, state 1 the position after the promotion is played. -/
def promoEngine : RuleEngine Nat :=
  { turn := fun _ => .w
    get := fun st sq => if st == 0 && sq == sqE7 then some { color := .w, ptype := .p } else none
    movesFrom := fun st sq => if st == 0 && sq == sqE7 then [sqE8] else []
    move := fun st f t promo =>
      if st == 0 && f == sqE7 && t == sqE8 then
        match promo with
        | some _ => .ok 1
        | none => .reject
      else .reject }

/-- Concrete engine transcript mirroring chess.js on a position with white
rooks on a1 and h1, white to move: the engine accepts a1 to a2 (state 1, black
to move) and then rejects the second consecutive white move h1 to h2, because
move legality and turn order are always enforced by the engine. -/
def turnEngine : RuleEngine Nat :=
  { turn := fun st => if st == 0 then .w else .b
    get := fun st sq =>
      if st == 0 && (sq == sqA1 || sq == sqH1) then some { color := .w, ptype := .r }
      else if st == 1 && (sq == sqA2 || sq == sqH1) then some { color := .w, ptype := .r }
      else none
    movesFrom := fun _ _ => []
    move := fun st f t _ =>
      if st == 0 && f == sqA1 && t == sqA2 then .ok 1 else .reject }

/-- Concrete engine transcript mirroring chess.js on the standard starting
position, restricted to the e2 pawn: white to move, e2 holds a white pawn
whose targets are e3 and e4. -/
def startEngine : RuleEngine Nat :=
  { turn := fun _ => .w
    get := fun st sq => if st == 0 && sq == sqE2 then some { color := .w, ptype := .p } else none
    movesFrom := fun st sq => if st == 0 && sq == sqE2 then [sqE3, sqE4] else []
    move := fun st f t _ =>
      if st == 0 && f == sqE2 && (t == sqE3 || t == sqE4) then .ok 1 else .reject }

/-- Engine whose move call always accepts; used to instantiate hypotheses
about an accepted move. -/
def okEngine : RuleEngine Unit :=
  { turn := fun _ => .w
    get := fun _ _ => none
    movesFrom := fun _ _ => []
    move := fun _ _ _ _ => .ok () }

/-- Engine whose move call always throws; used to instantiate the caught
engine-failure path. -/
def raiseEngine : RuleEngine Unit :=
  { turn := fun _ => .w
    get := fun _ _ => none
    movesFrom := fun _ _ => []
    move := fun _ _ _ _ => .raise }

/-- Fresh component state over engine state e with no selection, no pending
promotion and a zero debounce timestamp. -/
def freshState {E : Type} (e : E) : ComponentState E :=
  { chess := e, board := initialBoardState none none, lastMoveTime := 0 }

/-- Tap on e7 from the fresh promotion position: selects the pawn. -/
def promoStep1 : ComponentState Nat × List Effect :=
  onSquarePress promoEngine cfgPlain (freshState 0) sqE7 1000

/-- Tap on e8 afterwards: enters the promotion-pending state. -/
def promoStep2 : ComponentState Nat × List Effect :=
  onSquarePress promoEngine cfgPlain promoStep1.1 sqE8 1100

/-- C1 counterexample: the claimed mutual exclusion fails on the tap path.
After selecting the white pawn on e7 and tapping e8, the reachable controller
state has showPromotion set together with a still-active selection and a
non-empty reachable-target list, because the SHOW_PROMOTION branch of
onSquarePress returns without dispatching CLEAR_SELECTION. -/
theorem C1_counterexample :
    promoStep2.1.board.showPromotion = true ∧
    promoStep2.1.board.selectedSquare = some sqE7 ∧
    promoStep2.1.board.validMoves = [sqE8] := by decide

/-- C1 amended: the drag path does keep selection and pending promotion
mutually exclusive — every drag-end invocation of onHandlerStateChange leaves
the selection cleared (empty selected square and empty target list), whatever
state it produces otherwise; only the tap path retains the selection next to a
pending promotion. -/
theorem C1_amended {E : Type} (eng : RuleEngine E) (cfg : Config) (persp : Persp)
    (st : ComponentState E) (square : Square) (dx dy now : Int)
    (hl : cfg.isLoading = false) (hr : cfg.readonly = false)
    (hs : cfg.hasSquareSize = true) (hb : cfg.blindfoldMode = false) :
    (onHandlerStateChange eng cfg persp st square .ended dx dy now).1.board.selectedSquare =
      none ∧
    (onHandlerStateChange eng cfg persp st square .ended dx dy now).1.board.validMoves = [] := by
  unfold onHandlerStateChange
  simp only [hl, hr, hs, hb, Bool.not_true, Bool.or_false, Bool.false_or]
  split
  · simp_all
  · split
    · simp_all
    · split
      · split
        · split
          · split
            · exact ⟨rfl, rfl⟩
            · exact ⟨rfl, rfl⟩
          · exact ⟨rfl, rfl⟩
        · exact ⟨rfl, rfl⟩
      · simp_all

/-- C1 amended witness: concrete drag-end instance of the amended theorem. -/
theorem C1_amended_witness :
    (onHandlerStateChange startEngine cfgPlain .white (freshState 0) sqE2 .ended 0 0
        500).1.board.selectedSquare = none ∧
    (onHandlerStateChange startEngine cfgPlain .white (freshState 0) sqE2 .ended 0 0
        500).1.board.validMoves = [] :=
  C1_amended startEngine cfgPlain .white (freshState 0) sqE2 0 0 500 rfl rfl rfl rfl

/-- C2: the presentation round trip holds for the white orientation, but the
drag decoder breaks it for black: the decoder always takes the column to be
the file index (charCode minus 97), while black rendering places that file at
column 7 minus the file index.  Decoding a1 under black yields cell (0, 0),
and re-encoding (0, 0) under black yields h1, not a1. -/
theorem C2_roundtrip :
    (∀ r c : Fin 8,
        toPresentationIndex .white (squareAt .white r.val c.val) = (r.val, c.val)) ∧
    (∀ f k : Fin 8,
        squareAt .white
            (toPresentationIndex .white { file := f.val, rank := k.val + 1 }).1
            (toPresentationIndex .white { file := f.val, rank := k.val + 1 }).2 =
          { file := f.val, rank := k.val + 1 }) ∧
    toPresentationIndex .black sqA1 = (0, 0) ∧
    squareAt .black 0 0 = sqH1 ∧
    sqH1 ≠ sqA1 := by decide

/-- C5 counterexample: the component has no legality mode that accepts moves
without consulting the rule engine.  On an engine transcript with white rooks
on a1 and h1 (turn order enforced by the engine, as chess.js always does), the
first white move a1-a2 commits, but the second consecutive white move h1-h2 —
from an occupied square, to an in-bounds distinct square, well outside the
debounce window — is rejected by the engine and commits nothing. -/
theorem C5_counterexample :
    (handleMove turnEngine (freshState 0) (some sqA1) (some sqA2) none 200).2 =
      [Effect.moveCommitted (some sqA1) (some sqA2) none] ∧
    turnEngine.get
        (handleMove turnEngine (freshState 0) (some sqA1) (some sqA2) none 200).1.chess
        sqH1 = some { color := Color.w, ptype := PKind.r } ∧
    sqH1 ≠ sqH2 ∧
    (handleMove turnEngine
        (handleMove turnEngine (freshState 0) (some sqA1) (some sqA2) none 200).1
        (some sqH1) (some sqH2) none 400).2 = [] := by decide

/-- C5 amended: every move attempt that survives the debounce window consults
the rule engine, and a move is committed exactly when the engine accepts it:
the emitted effects contain a commit iff the engine reply is ok, the committed
snapshot is the engine result, and a non-ok reply leaves the snapshot
unchanged.  The skipValidation flag passed to the chess.js constructor only
skips FEN validation; no code path bypasses move legality or turn order. -/
theorem C5_amended {E : Type} (eng : RuleEngine E) (st : ComponentState E)
    (f t : Square) (p : Option PKind) (now : Int)
    (h : ¬ now - st.lastMoveTime < 150) :
    commitsMove (handleMove eng st (some f) (some t) p now).2 =
      (eng.move st.chess f t p).isOk ∧
    (∀ next : E, eng.move st.chess f t p = .ok next →
      (handleMove eng st (some f) (some t) p now).1.chess = next) ∧
    ((eng.move st.chess f t p).isOk = false →
      (handleMove eng st (some f) (some t) p now).1.chess = st.chess) := by
  cases hrep : eng.move st.chess f t p <;>
    simp [handleMove, RuleEngine.moveOpt, h, hrep, commitsMove, EngineReply.isOk]

/-- C5 amended witness: concrete instance with an accepting engine. -/
theorem C5_amended_witness :
    commitsMove (handleMove okEngine (freshState ()) (some sqE2) (some sqE4) none 200).2 =
      (okEngine.move () sqE2 sqE4 none).isOk ∧
    (∀ next : Unit, okEngine.move () sqE2 sqE4 none = .ok next →
      (handleMove okEngine (freshState ()) (some sqE2) (some sqE4) none 200).1.chess = next) ∧
    ((okEngine.move () sqE2 sqE4 none).isOk = false →
      (handleMove okEngine (freshState ()) (some sqE2) (some sqE4) none 200).1.chess = ()) :=
  C5_amended okEngine (freshState ()) sqE2 sqE4 none 200 (by decide)

/-- C6 counterexample: highlight a1 at 0 ms and b2 at 2000 ms; at 3500 ms the
hint is gone, cleared by the unconditional timer of the first call, although
the hint set by the second call alone would still be live at 3500 ms (its own
expiry is 5000 ms).  An earlier call expiration does clear a later hint. -/
theorem C6_counterexample :
    hintAfter [(0, sqA1), (2000, sqB2)] 3500 = none ∧
    hintAfter [(2000, sqB2)] 3500 = some sqB2 := by decide

/-- C6 amended: a highlight auto-clears 3000 ms after some call, but
superseding does not cancel the prior timer: each call schedules an
unconditional clear, so the hint is cleared at the earliest outstanding
expiration, even when a later call set it.  For two calls with the second
inside the window of the first, the hint is empty from the first expiry on,
while the second call alone would still show its hint; a single call
auto-clears after exactly the 3000 ms duration. -/
theorem C6_amended (t0 t1 tEnd : Int) (sq1 sq2 : Square)
    (h01 : t0 < t1) (h1in : t1 < t0 + 3000) (hfire : t0 + 3000 ≤ tEnd)
    (hlive : tEnd < t1 + 3000) :
    hintAfter [(t0, sq1), (t1, sq2)] tEnd = none ∧
    hintAfter [(t1, sq2)] tEnd = some sq2 ∧
    (∀ (t te : Int) (sq : Square), t + 3000 ≤ te → hintAfter [(t, sq)] te = none) := by
  refine ⟨?_, ?_, ?_⟩
  · have hA : ¬ (t0 + 3000 ≤ t1) := by omega
    simp [hintAfter, runHighlights, fireDue, hA, h1in, hfire]
  · have hB : ¬ (t1 + 3000 ≤ tEnd) := by omega
    simp [hintAfter, runHighlights, fireDue, hB]
  · intro t te sq hdue
    simp [hintAfter, runHighlights, fireDue, hdue]

/-- C6 amended witness: concrete instance of the amended hint-timer claim. -/
theorem C6_amended_witness :
    hintAfter [(0, sqA1), (2000, sqB2)] 3600 = none ∧
    hintAfter [(2000, sqB2)] 3600 = some sqB2 ∧
    (∀ (t te : Int) (sq : Square), t + 3000 ≤ te → hintAfter [(t, sq)] te = none) :=
  C6_amended 0 2000 3600 sqA1 sqB2 (by decide) (by decide) (by decide) (by decide)

/-- C7 counterexample: the blindfold redirection requires the onBlindSelect
callback to be present.  With blindfold mode active but no callback supplied
(both are independent props), tapping the e2 pawn falls through to the
selection pipeline and changes the selection state, and no reveal callback is
invoked. -/
theorem C7_counterexample :
    cfgBlindNoCb.blindfoldMode = true ∧
    (onSquarePress startEngine cfgBlindNoCb (freshState 0) sqE2 100).1.board.selectedSquare =
      some sqE2 ∧
    (onSquarePress startEngine cfgBlindNoCb (freshState 0) sqE2 100).2 = [] := by decide

/-- C7 amended: whenever blindfold mode is active AND a reveal callback is
provided, every square activation is redirected to the reveal callback with
the activated square, before any selection logic runs, and the component state
is left completely unchanged, regardless of which square is activated or what
it holds. -/
theorem C7_amended {E : Type} (eng : RuleEngine E) (cfg : Config)
    (st : ComponentState E) (square : Square) (now : Int)
    (hl : cfg.isLoading = false) (hr : cfg.readonly = false)
    (hb : cfg.blindfoldMode = true) (hcb : cfg.hasOnBlindSelect = true) :
    onSquarePress eng cfg st square now = (st, [.blindSelect square]) := by
  simp [onSquarePress, hl, hr, hb, hcb]

/-- C7 amended witness: concrete blindfold redirection with a callback. -/
theorem C7_amended_witness :
    onSquarePress startEngine cfgBlindCb (freshState 0) sqE2 100 =
      ((freshState 0 : ComponentState Nat), [Effect.blindSelect sqE2]) :=
  C7_amended startEngine cfgBlindCb (freshState 0) sqE2 100 rfl rfl rfl rfl

/-- C8: the masking predicate never masks an empty square, whatever the mode
and hidden set, and it masks a square exactly when blindfold mode is active,
the square holds a piece, and the hidden set covers the square. -/
theorem C8_masking_invariant :
    (∀ (bm : Bool) (hs : HiddenSquares) (sq : Square), isHidden bm none hs sq = false) ∧
    (∀ (bm : Bool) (pc : Option Piece) (hs : HiddenSquares) (sq : Square),
        isHidden bm pc hs sq = true ↔
          bm = true ∧ pc.isSome = true ∧ coveredBy hs sq = true) := by
  constructor
  · intro bm hs sq
    simp [isHidden]
  · intro bm pc hs sq
    simp [isHidden, Bool.and_eq_true, and_assoc]

/-- C3: for every selected pawn on its next-to-farthest rank, activating a
target on the farthest rank of its side does not commit a move but enters the
promotion-pending state with that from and to pair; subsequently supplying a
promotion piece re-issues the same move intent with the kind filled in, which
the engine accepts, the move is committed and emitted, and the controller
returns to Idle (no selection, no targets, no pending promotion). -/
theorem C3_promotion_flow {E : Type} (eng : RuleEngine E) (cfg : Config)
    (st : ComponentState E) (sel target : Square) (pc : Piece) (kind : PKind)
    (next : E) (now1 now2 : Int)
    (hl : cfg.isLoading = false) (hr : cfg.readonly = false)
    (hb : cfg.blindfoldMode = false)
    (hsel : st.board.selectedSquare = some sel)
    (hne : sel ≠ target)
    (hpc : eng.get st.chess sel = some pc)
    (hpawn : pc.ptype = .p)
    (hside : (pc.color = .w ∧ sel.rank = 7 ∧ target.rank = 8) ∨
             (pc.color = .b ∧ sel.rank = 2 ∧ target.rank = 1))
    (hclick : isOwnTurnPiece (eng.get st.chess target) (eng.turn st.chess) = false)
    (hdeb : ¬ now2 - st.lastMoveTime < 150)
    (hacc : eng.move st.chess sel target (some kind) = .ok next) :
    onSquarePress eng cfg st target now1 =
      ({ st with board := boardReducer st.board (.showPromotion (some sel) (some target)) },
       []) ∧
    handlePromotionSelect eng
        { st with board := boardReducer st.board (.showPromotion (some sel) (some target)) }
        kind now2 =
      ({ chess := next
         board := { selectedSquare := none
                    validMoves := []
                    lastMoveFrom := some sel
                    lastMoveTo := some target
                    hintSquare := st.board.hintSquare
                    showPromotion := false
                    promotionFrom := none
                    promotionTo := none }
         lastMoveTime := now2 },
       [.moveCommitted (some sel) (some target) (some kind)]) := by
  have hpromo : isPromoPress pc sel target = true := by
    rcases hside with ⟨hc, ha, hbk⟩ | ⟨hc, ha, hbk⟩ <;>
      simp [isPromoPress, hpawn, hc, ha, hbk]
  constructor
  · simp [onSquarePress, hl, hr, hb, hsel, hpc, hclick, hpromo, hne]
  · unfold handlePromotionSelect
    simp only [boardReducer]
    unfold handleMove
    simp only []
    rw [if_neg (by simpa using hdeb)]
    simp [RuleEngine.moveOpt, hacc, boardReducer]

/-- C3 witness: the concrete e7-e8 white-pawn run against the promotion engine
transcript, with the queen chosen. -/
theorem C3_witness :
    onSquarePress promoEngine cfgPlain promoStep1.1 sqE8 1100 =
      ({ promoStep1.1 with
          board := boardReducer promoStep1.1.board (.showPromotion (some sqE7) (some sqE8)) },
       []) ∧
    handlePromotionSelect promoEngine
        { promoStep1.1 with
            board := boardReducer promoStep1.1.board (.showPromotion (some sqE7) (some sqE8)) }
        PKind.q 1200 =
      ({ chess := 1
         board := { selectedSquare := none
                    validMoves := []
                    lastMoveFrom := some sqE7
                    lastMoveTo := some sqE8
                    hintSquare := promoStep1.1.board.hintSquare
                    showPromotion := false
                    promotionFrom := none
                    promotionTo := none }
         lastMoveTime := 1200 },
       [.moveCommitted (some sqE7) (some sqE8) (some PKind.q)]) :=
  C3_promotion_flow promoEngine cfgPlain promoStep1.1 sqE7 sqE8
    { color := .w, ptype := .p } PKind.q 1 1100 1200 rfl rfl rfl (by decide) (by decide)
    (by decide) rfl (Or.inl (by decide)) (by decide) (by decide) (by decide)

/-- C4: two move-commit attempts less than 150 ms apart produce exactly one
accepted commit.  The first attempt (outside the debounce window, accepted by
the engine) commits, updates the snapshot and move record and clears the
selection; the second attempt, whatever its arguments, is silently dropped —
it returns the state exactly as the first commit left it, emits nothing, and
raises no error. -/
theorem C4_debounce {E : Type} (eng : RuleEngine E) (st : ComponentState E)
    (f t f2 t2 : Square) (p p2 : Option PKind) (next : E) (now1 now2 : Int)
    (h1 : ¬ now1 - st.lastMoveTime < 150)
    (hacc : eng.move st.chess f t p = .ok next)
    (h2 : now2 - now1 < 150) :
    handleMove eng st (some f) (some t) p now1 =
      ({ chess := next
         board := boardReducer (boardReducer st.board (.setLastMove (some f) (some t)))
           .clearSelection
         lastMoveTime := now1 },
       [.moveCommitted (some f) (some t) p]) ∧
    handleMove eng (handleMove eng st (some f) (some t) p now1).1 (some f2) (some t2) p2 now2 =
      ((handleMove eng st (some f) (some t) p now1).1, []) := by
  have hfirst : handleMove eng st (some f) (some t) p now1 =
      ({ chess := next
         board := boardReducer (boardReducer st.board (.setLastMove (some f) (some t)))
           .clearSelection
         lastMoveTime := now1 },
       [.moveCommitted (some f) (some t) p]) := by
    simp [handleMove, RuleEngine.moveOpt, h1, hacc]
  refine ⟨hfirst, ?_⟩
  rw [hfirst]
  simp [handleMove, h2]

/-- C4 witness: two concrete attempts 10 ms apart against an accepting
engine. -/
theorem C4_witness :
    handleMove okEngine (freshState ()) (some sqE2) (some sqE4) none 200 =
      ({ chess := ()
         board := boardReducer
           (boardReducer (freshState () : ComponentState Unit).board
             (.setLastMove (some sqE2) (some sqE4))) .clearSelection
         lastMoveTime := 200 },
       [.moveCommitted (some sqE2) (some sqE4) none]) ∧
    handleMove okEngine
        (handleMove okEngine (freshState ()) (some sqE2) (some sqE4) none 200).1
        (some sqE2) (some sqE4) none 210 =
      ((handleMove okEngine (freshState ()) (some sqE2) (some sqE4) none 200).1, []) :=
  C4_debounce okEngine (freshState ()) sqE2 sqE4 sqE2 sqE4 none none () 200 210
    (by decide) rfl (by decide)

/-- C9: every failed move attempt leaves the controller in a valid state with
no exception propagated: an engine rejection clears the selection and changes
neither the snapshot nor the move record; a throwing engine is caught (only a
console warning is emitted) with the same state outcome; a drag ending out of
bounds, and a drag ending in bounds on an unreachable square, both abort with
the distinct invalid signal Vibration.vibrate(80), clear the selection, and
commit nothing. -/
theorem C9_failed_attempts :
    (∀ (E : Type) (eng : RuleEngine E) (st : ComponentState E) (f t : Square)
        (p : Option PKind) (now : Int),
        ¬ now - st.lastMoveTime < 150 →
        eng.move st.chess f t p = .reject →
        handleMove eng st (some f) (some t) p now =
          ({ st with board := boardReducer st.board .clearSelection, lastMoveTime := now },
           [])) ∧
    (∀ (E : Type) (eng : RuleEngine E) (st : ComponentState E) (f t : Square)
        (p : Option PKind) (now : Int),
        ¬ now - st.lastMoveTime < 150 →
        eng.move st.chess f t p = .raise →
        handleMove eng st (some f) (some t) p now =
          ({ st with board := boardReducer st.board .clearSelection, lastMoveTime := now },
           [.warnMoveError])) ∧
    (∀ (E : Type) (eng : RuleEngine E) (cfg : Config) (persp : Persp)
        (st : ComponentState E) (square : Square) (dx dy now : Int),
        cfg.isLoading = false → cfg.readonly = false → cfg.hasSquareSize = true →
        cfg.blindfoldMode = false →
        dragInBounds (dragCell persp square dx dy) = false →
        onHandlerStateChange eng cfg persp st square .ended dx dy now =
          ({ st with board := boardReducer st.board .clearSelection }, [.vibrate 80])) ∧
    (∀ (E : Type) (eng : RuleEngine E) (cfg : Config) (persp : Persp)
        (st : ComponentState E) (square : Square) (dx dy now : Int),
        cfg.isLoading = false → cfg.readonly = false → cfg.hasSquareSize = true →
        cfg.blindfoldMode = false →
        dragInBounds (dragCell persp square dx dy) = true →
        st.board.validMoves.contains (dragTarget persp (dragCell persp square dx dy)) = false →
        onHandlerStateChange eng cfg persp st square .ended dx dy now =
          ({ st with board := boardReducer st.board .clearSelection }, [.vibrate 80])) := by
  refine ⟨?_, ?_, ?_, ?_⟩
  · intro E eng st f t p now h1 hrej
    simp [handleMove, RuleEngine.moveOpt, h1, hrej]
  · intro E eng st f t p now h1 hrz
    simp [handleMove, RuleEngine.moveOpt, h1, hrz]
  · intro E eng cfg persp st square dx dy now hl hr hs hb hoob
    simp [onHandlerStateChange, hl, hr, hs, hb, hoob]
  · intro E eng cfg persp st square dx dy now hl hr hs hb hin hmiss
    have hm : dragTarget persp (dragCell persp square dx dy) ∉ st.board.validMoves := by
      simpa using hmiss
    simp [onHandlerStateChange, hl, hr, hs, hb, hin, hm]

/-- C9 witness: concrete instances of all four failure paths — a rejected
engine move, a throwing engine, a drag released 9 files off the board, and a
zero-displacement drag release with no reachable targets. -/
theorem C9_witness :
    handleMove turnEngine (freshState 1) (some sqH1) (some sqH2) none 200 =
      ({ freshState 1 with
          board := boardReducer (freshState 1 : ComponentState Nat).board .clearSelection
          lastMoveTime := 200 }, []) ∧
    handleMove raiseEngine (freshState ()) (some sqE2) (some sqE4) none 200 =
      ({ freshState () with
          board := boardReducer (freshState () : ComponentState Unit).board .clearSelection
          lastMoveTime := 200 }, [.warnMoveError]) ∧
    onHandlerStateChange startEngine cfgPlain .white (freshState 0) sqE2 .ended (-9) 0 300 =
      ({ freshState 0 with
          board := boardReducer (freshState 0 : ComponentState Nat).board .clearSelection },
       [.vibrate 80]) ∧
    onHandlerStateChange startEngine cfgPlain .white (freshState 0) sqE2 .ended 0 0 300 =
      ({ freshState 0 with
          board := boardReducer (freshState 0 : ComponentState Nat).board .clearSelection },
       [.vibrate 80]) :=
  ⟨C9_failed_attempts.1 Nat turnEngine (freshState 1) sqH1 sqH2 none 200 (by decide)
      (by decide),
   C9_failed_attempts.2.1 Unit raiseEngine (freshState ()) sqE2 sqE4 none 200 (by decide) rfl,
   C9_failed_attempts.2.2.1 Nat startEngine cfgPlain .white (freshState 0) sqE2 (-9) 0 300
     rfl rfl rfl rfl (by decide),
   C9_failed_attempts.2.2.2 Nat startEngine cfgPlain .white (freshState 0) sqE2 0 0 300
     rfl rfl rfl rfl (by decide) (by decide)⟩

/-- C10: handleMove records the arrival time for debounce purposes before
consulting the engine, so a rejected or throwing attempt still opens the
150 ms window: the failed first attempt sets the timestamp and commits
nothing, and any second attempt within 150 ms — even one the engine would
accept — is silently dropped and commits nothing. -/
theorem C10_debounce_before_validation {E : Type} (eng : RuleEngine E)
    (st : ComponentState E) (f t f2 t2 : Square) (p p2 : Option PKind) (now1 now2 : Int)
    (h1 : ¬ now1 - st.lastMoveTime < 150)
    (hfail : (eng.move st.chess f t p).isOk = false)
    (h2 : now2 - now1 < 150) :
    (handleMove eng st (some f) (some t) p now1).1.lastMoveTime = now1 ∧
    commitsMove (handleMove eng st (some f) (some t) p now1).2 = false ∧
    handleMove eng (handleMove eng st (some f) (some t) p now1).1 (some f2) (some t2) p2
        now2 =
      ((handleMove eng st (some f) (some t) p now1).1, []) := by
  cases hrep : eng.move st.chess f t p with
  | ok next =>
      rw [hrep] at hfail
      simp [EngineReply.isOk] at hfail
  | reject =>
      have hfirst : handleMove eng st (some f) (some t) p now1 =
          ({ st with board := boardReducer st.board .clearSelection, lastMoveTime := now1 },
           []) := by
        simp [handleMove, RuleEngine.moveOpt, h1, hrep]
      refine ⟨by rw [hfirst], ?_, ?_⟩
      · rw [hfirst]
        simp [commitsMove]
      · rw [hfirst]
        simp [handleMove, h2]
  | raise =>
      have hfirst : handleMove eng st (some f) (some t) p now1 =
          ({ st with board := boardReducer st.board .clearSelection, lastMoveTime := now1 },
           [.warnMoveError]) := by
        simp [handleMove, RuleEngine.moveOpt, h1, hrep]
      refine ⟨by rw [hfirst], ?_, ?_⟩
      · rw [hfirst]
        simp [commitsMove]
      · rw [hfirst]
        simp [handleMove, h2]

/-- C10 witness: a rejected white h1-h2 attempt at 200 ms followed 100 ms
later by the move a1-a2 that the engine would accept; the second attempt is
dropped. -/
theorem C10_witness :
    (handleMove turnEngine (freshState 1) (some sqH1) (some sqH2) none 200).1.lastMoveTime =
      200 ∧
    commitsMove (handleMove turnEngine (freshState 1) (some sqH1) (some sqH2) none 200).2 =
      false ∧
    handleMove turnEngine
        (handleMove turnEngine (freshState 1) (some sqH1) (some sqH2) none 200).1
        (some sqA1) (some sqA2) none 300 =
      ((handleMove turnEngine (freshState 1) (some sqH1) (some sqH2) none 200).1, []) :=
  C10_debounce_before_validation turnEngine (freshState 1) sqH1 sqH2 sqA1 sqA2 none none
    200 300 (by decide) (by decide) (by decide)

end Chessboard
